import Mathlib

/-!
ConnectorMongoose (src/Connectors/Mongoose.Storage.js)

A shallow embedding of the connector class: the constructor's option handling,
the `awaitDatabase` gate built on a `once('databaseAvailable')` listener, the
connection set-up with its two branches (`this.db.once` present or absent), the
three connection handlers, and the five gated operations.

JavaScript is single threaded: every handler below runs to completion, so the
connector is a state machine whose inputs are client calls and signals of the
driver.  The continuation of `awaitDatabase().then(...)` runs as a microtask
directly after the gate resolves; no signal can come in between, so resolving the
gate and issuing the store call are one step here.  `console.log` /
`console.error` output is not part of the state.  Requiring the three model files
and looking the models up (`_includeModels`, `_getModels`) is taken to succeed.
-/

namespace ConnectorMongoose

/-! ## JavaScript values -/

/-- `Number.MAX_SAFE_INTEGER`, 2^53 - 1. -/
def maxSafeInteger : Nat := 9007199254740991

/-- The safe integers, from -(2^53 - 1) to 2^53 - 1: every one of them is a
JavaScript number, and JavaScript prints it in plain decimal (exponent form only
starts at 1e21, and above 2^53 the decimal digits are no longer those of the
integer). -/
abbrev SafeInt : Type := { n : Int // n.natAbs ≤ maxSafeInteger }

/-- The primitive JavaScript values an option or an action field can hold.  Numbers
are restricted to the safe integers; fractions, larger numbers, NaN and the
infinities are left out. -/
inductive JSVal where
  | undefined : JSVal
  | null : JSVal
  | bool (b : Bool) : JSVal
  | num (n : SafeInt) : JSVal
  | str (s : String) : JSVal
deriving DecidableEq, Repr

/-- Truthiness as used by `?:` and `||`. -/
def JSVal.truthy : JSVal → Bool
  | .undefined => false
  | .null => false
  | .bool b => b
  | .num n => n.val != 0
  | .str s => s != ""

/-- The string a value contributes to a template literal or to `'...' + v`: for a
safe integer its decimal digits, with a leading `-` when negative. -/
def JSVal.toStr : JSVal → String
  | .undefined => "undefined"
  | .null => "null"
  | .bool true => "true"
  | .bool false => "false"
  | .num n => toString n.val
  | .str s => s

/-- The expression `a || b`. -/
def JSVal.or (a b : JSVal) : JSVal := if a.truthy then a else b

/-! ## Options and the constructor's computed fields -/

/-- The fields of `options` that the class reads. -/
structure Options where
  host : JSVal := .undefined
  port : JSVal := .undefined
  dbName : JSVal := .undefined
  user : JSVal := .undefined
  password : JSVal := .undefined
  pass : JSVal := .undefined
  connectionString : JSVal := .undefined
  debug : JSVal := .undefined
  test : JSVal := .undefined
deriving DecidableEq, Repr

/-- Line 68: `options.host ? options.host : '127.0.0.1'`. -/
def hostOf (o : Options) : JSVal :=
  if o.host.truthy then o.host else .str "127.0.0.1"

/-- Line 69: `options.port ? options.port : '27017'`. -/
def portOf (o : Options) : JSVal :=
  if o.port.truthy then o.port else .str "27017"

/-- Line 70: `options.dbName ? options.dbName : 'eventually'`. -/
def dbNameOf (o : Options) : JSVal :=
  if o.dbName.truthy then o.dbName else .str "eventually"

/-- Lines 71-73: the credentials part of the connection string. -/
def credentialsOf (o : Options) : String :=
  if o.user.truthy then
    o.user.toStr ++ (if o.password.truthy then ":" ++ o.password.toStr else "") ++ "@"
  else ""

/-- Line 76: the string composed from credentials, host, port and database name. -/
def composedString (o : Options) : String :=
  "mongodb://" ++ credentialsOf o ++ (hostOf o).toStr ++ ":" ++ (portOf o).toStr
    ++ "/" ++ (dbNameOf o).toStr

/-- Lines 74-76: `options.connectionString ? options.connectionString : composed`. -/
def connectionStringOf (o : Options) : JSVal :=
  if o.connectionString.truthy then o.connectionString else .str (composedString o)

/-- Line 77: `typeof options.debug !== 'undefined' ? options.debug : false`. -/
def debugOf (o : Options) : JSVal :=
  if o.debug = .undefined then .bool false else o.debug

/-! ## Gated operations and the store calls they issue -/

/-- The argument of `createNewAction`. -/
structure ActionData where
  appId : JSVal := .undefined
  date : JSVal := .undefined
  action : JSVal := .undefined
  actionState : JSVal := .undefined
  priority : JSVal := .undefined
deriving DecidableEq, Repr

/-- The object handed to `new this.Action(...)` and saved (lines 18-24). -/
structure ActionFields where
  appId : JSVal
  date : JSVal
  action : JSVal
  actionState : JSVal
  priority : JSVal
deriving DecidableEq, Repr

/-- Lines 18-24: the record `createNewAction` builds from its argument. -/
def newActionFields (actionData : ActionData) : ActionFields :=
  { appId := actionData.appId
    date := actionData.date
    action := actionData.action
    actionState := actionData.actionState
    priority := actionData.priority.or (.str "Medium") }

/-- A call of one of the gated methods, or of `awaitDatabase` on its own. -/
inductive Op where
  | getCurrentAction (availableActions : List String) : Op
  | createNewAction (actionData : ActionData) : Op
  | removeActionById (actionId : JSVal) : Op
  | removeAction (appId action : JSVal) : Op
  | updateAction (appId actionName data : JSVal) : Op
  | awaitOnly : Op
deriving DecidableEq, Repr

/-- A call on the `Action` model. -/
inductive StoreCall where
  | findInSortByDateAsc (availableActions : List String) : StoreCall
  | save (fields : ActionFields) : StoreCall
  | findOneAndRemoveById (actionId : JSVal) : StoreCall
  | findOneAndRemove (appId action : JSVal) : StoreCall
  | updateSetActionState (appId action data : JSVal) : StoreCall
deriving DecidableEq, Repr

/-- The body of the `.then` callback of each gated method. -/
def storeCallOf : Op → Option StoreCall
  | .getCurrentAction availableActions => some (.findInSortByDateAsc availableActions)
  | .createNewAction actionData => some (.save (newActionFields actionData))
  | .removeActionById actionId => some (.findOneAndRemoveById actionId)
  | .removeAction appId action => some (.findOneAndRemove appId action)
  | .updateAction appId actionName data => some (.updateSetActionState appId actionName data)
  | .awaitOnly => none

/-! ## The connector state -/

/-- A listener registered with `this.emitter.once('databaseAvailable', ...)`. -/
inductive Listener where
  | ctor : Listener
  | waiter (id : Nat) (op : Op) : Listener
deriving DecidableEq, Repr

/-- One invocation of `mongoose.connect(uri, {user, pass, dbName, ...})`. -/
structure ConnectCall where
  uri : JSVal
  user : JSVal
  pass : JSVal
  dbName : JSVal
deriving DecidableEq, Repr

/-- What the connector cannot decide itself: whether the value returned by
`mongoose.connect` has a `once` method (an event-emitting connection) or is a
plain promise, and the connection string the in-memory server hands out. -/
structure Env where
  connectHasOnce : Bool
  memoryServerUri : JSVal → JSVal

/-- One `awaitDatabase` call: its number, whether `databaseAvailable` was set
when it was made, and how many emissions of 'databaseAvailable' had happened. -/
structure Issue where
  id : Nat
  available : Bool
  emits : Nat
deriving DecidableEq, Repr

/-- A resolution of the promise of `awaitDatabase` call `id`, stamped with the
number of emissions of 'databaseAvailable' that had happened by then. -/
structure Resolution where
  id : Nat
  emits : Nat
deriving DecidableEq, Repr

/-- A store call issued by the continuation of `awaitDatabase` call `id`.  When
`this.Action` is still undefined the callback throws instead (`call = none`). -/
structure Issued where
  id : Nat
  emits : Nat
  call : Option StoreCall
deriving DecidableEq, Repr

/-- The connector object together with the parts of the driver it talks to and a
log of what has happened. -/
structure State where
  -- fields of `this`
  options : Options
  host : JSVal
  port : JSVal
  dbName : JSVal
  credentials : String
  connectionString : JSVal
  debug : JSVal
  /-- `this.databaseAvailable`; undefined (falsy) until the constructor's listener runs. -/
  databaseAvailable : Bool
  /-- Whether `this.Action`, `this.History`, `this.ActionError` are defined. -/
  modelsLoaded : Bool
  /-- The `once` listeners of `this.emitter` for 'databaseAvailable', oldest first. -/
  listeners : List Listener
  -- the driver
  memoryServerUri : JSVal → JSVal
  connectResultHasOnce : Bool
  /-- The arguments of the calls of `_openConnection`, oldest first. -/
  openUris : List JSVal
  /-- The calls of `mongoose.connect`, oldest first. -/
  connectCalls : List ConnectCall
  /-- The `once('open', ...)` handler of line 117 is registered and has not run. -/
  openOnce : Bool
  /-- The `on('disconnected')` and `on('error')` handlers of lines 118-119 are
  registered. -/
  dbHandlers : Bool
  /-- The chain `.then(...).catch(...)` of lines 121-125 is attached and the promise
  has not settled. -/
  thenPending : Bool
  /-- The value last given to `mongoose.set('debug', ...)`. -/
  mongooseDebug : JSVal
  -- what has happened so far
  /-- The number of `awaitDatabase` calls made. -/
  nextId : Nat
  /-- The number of emissions of 'databaseAvailable'. -/
  emits : Nat
  issues : List Issue
  resolved : List Resolution
  storeCalls : List Issued

/-! ## Methods -/

/-- Lines 89-99: `mongoose.connect(uri, {user: options.user, pass: options.pass,
dbName: this.dbName, ...})`. -/
def _createMongooseConnection (s : State) (uri : JSVal) : State :=
  { s with connectCalls := s.connectCalls ++
      [{ uri := uri, user := s.options.user, pass := s.options.pass, dbName := s.dbName }] }

/-- Lines 101-111: in test mode the URI of a fresh in-memory server replaces the
argument; otherwise the argument is passed on. -/
def _openConnection (s : State) (uri : JSVal) : State :=
  let s1 : State := { s with openUris := s.openUris ++ [uri] }
  if s1.options.test.truthy then
    _createMongooseConnection s1 (s1.memoryServerUri s1.dbName)
  else
    _createMongooseConnection s1 uri

/-- Whether the value `_openConnection` returns has a `once` method: in test mode
it is the promise made by `.then`, otherwise whatever `mongoose.connect` returned. -/
def dbHasOnce (s : State) : Bool :=
  !s.options.test.truthy && s.connectResultHasOnce

/-- Lines 113-127: open the connection, then either register the three handlers
on it or chain `.then(emit).catch(log)` on it. -/
def _setupMongooseConnections (s : State) : State :=
  let s1 := _openConnection s s.connectionString
  if dbHasOnce s1 then
    { s1 with openOnce := true, dbHandlers := true }
  else
    { s1 with thenPending := true }

/-- The constructor, lines 66-87. -/
def construct (env : Env) (options : Options) : State :=
  _setupMongooseConnections
    { options := options
      host := hostOf options
      port := portOf options
      dbName := dbNameOf options
      credentials := credentialsOf options
      connectionString := connectionStringOf options
      debug := debugOf options
      databaseAvailable := false
      modelsLoaded := false
      listeners := [.ctor]
      memoryServerUri := env.memoryServerUri
      connectResultHasOnce := env.connectHasOnce
      openUris := []
      connectCalls := []
      openOnce := false
      dbHandlers := false
      thenPending := false
      mongooseDebug := .undefined
      nextId := 0
      emits := 0
      issues := []
      resolved := []
      storeCalls := [] }

/-- The promise of `awaitDatabase` call `id` resolves and its `.then` callback
runs: the callback issues the store call of `op` (or throws a TypeError when
`this.Action` is undefined). -/
def resolveWaiter (s : State) (id : Nat) (op : Op) : State :=
  let s1 : State := { s with resolved := s.resolved ++ [{ id := id, emits := s.emits }] }
  match storeCallOf op with
  | none => s1
  | some c =>
    { s1 with storeCalls := s1.storeCalls ++
        [{ id := id, emits := s1.emits, call := if s1.modelsLoaded then some c else none }] }

/-- Lines 36-46 followed by the `.then` of the calling method: resolve at once
when `databaseAvailable` is set, otherwise register a `once` listener. -/
def awaitDatabase (s : State) (op : Op) : State :=
  let id := s.nextId
  let s1 : State := { s with
    nextId := id + 1
    issues := s.issues ++ [{ id := id, available := s.databaseAvailable, emits := s.emits }] }
  if s1.databaseAvailable then
    resolveWaiter s1 id op
  else
    { s1 with listeners := s1.listeners ++ [.waiter id op] }

/-- The body of one listener: the constructor's (lines 81-85) sets the flag and
loads the models, a waiter's (lines 41-43) resolves its promise. -/
def runListener (s : State) : Listener → State
  | .ctor => { s with databaseAvailable := true, modelsLoaded := true }
  | .waiter id op => resolveWaiter s id op

/-- Line 122, `this.emitter.emit('databaseAvailable')`: every `once` listener is
removed and called, in registration order. -/
def emitDatabaseAvailable (s : State) : State :=
  s.listeners.foldl runListener { s with listeners := [], emits := s.emits + 1 }

/-- Lines 129-132. -/
def _mongooseError (s : State) : State :=
  _openConnection s s.connectionString

/-- Lines 134-140; the 'open' event passes no argument. -/
def _mongooseOpened (s : State) (error : JSVal) : State :=
  if error.truthy then s else { s with mongooseDebug := s.debug }

/-- Lines 142-146. -/
def _mongooseDisconnected (s : State) : State :=
  _openConnection { s with mongooseDebug := .null } s.connectionString

/-- What can happen to a connector: a client call, the promise `this.db` settling,
or the connection object emitting 'open', 'error' or 'disconnected'. -/
inductive Event where
  | call (op : Op) : Event
  | connectResolved : Event
  | connectRejected : Event
  | opened : Event
  | errored : Event
  | disconnected : Event
deriving DecidableEq, Repr

/-- The promise `this.db` has settled: its `.then` / `.catch` chain will not run
again. -/
def promiseSettled (s : State) : State := { s with thenPending := false }

/-- The `once('open', ...)` listener is removed when it is called. -/
def openListenerRemoved (s : State) : State := { s with openOnce := false }

/-- One step: a signal only has an effect when the set-up registered a handler
for it (lines 116-126), and a promise settles once. -/
def step (s : State) : Event → State
  | .call op => awaitDatabase s op
  | .connectResolved =>
    if s.thenPending then emitDatabaseAvailable (promiseSettled s) else s
  | .connectRejected =>
    if s.thenPending then promiseSettled s else s
  | .opened =>
    if s.openOnce then _mongooseOpened (openListenerRemoved s) JSVal.undefined else s
  | .errored => if s.dbHandlers then _mongooseError s else s
  | .disconnected => if s.dbHandlers then _mongooseDisconnected s else s

/-- Run a sequence of events. -/
def run (s : State) (events : List Event) : State := events.foldl step s

/-! ## The stored collection -/

/-- A stored action document with the fields the query of `getCurrentAction`
looks at typed: `action` is a string tag and `date` a timestamp. -/
structure ActionDoc where
  id : Nat
  appId : String
  date : Int
  action : String
  actionState : JSVal
  priority : String
deriving DecidableEq, Repr

/-- Ascending order of dates. -/
def dateLe (a b : ActionDoc) : Prop := a.date ≤ b.date

instance dateLe_decidable : DecidableRel dateLe :=
  fun a b => inferInstanceAs (Decidable (a.date ≤ b.date))

instance dateLe_total : IsTotal ActionDoc dateLe := ⟨fun a b => le_total a.date b.date⟩

instance dateLe_trans : IsTrans ActionDoc dateLe :=
  ⟨fun _ _ _ hab hbc => Int.le_trans hab hbc⟩

/-- Modelled from the spec: the store's `find` with the filter
`{ action: { $in: availableActions } }` (the `Action` model and the driver are not
under src/).  It keeps the stored actions whose `action` field is a member of
`availableActions`. -/
def findActionIn (docs : List ActionDoc) (availableActions : List String) : List ActionDoc :=
  docs.filter (fun d => decide (d.action ∈ availableActions))

/-- Modelled from the spec: the store's `.sort({ date: 'asc' })` (the driver is not
under src/).  It orders a query result by ascending `date`, keeping the relative
order of equal dates. -/
def sortByDateAsc (docs : List ActionDoc) : List ActionDoc :=
  docs.insertionSort dateLe

/-- Lines 10-12 evaluated on the stored collection: what the promise returned by
`getCurrentAction` resolves to once the gate has resolved. -/
def getCurrentAction (docs : List ActionDoc) (availableActions : List String) :
    List ActionDoc :=
  sortByDateAsc (findActionIn docs availableActions)

/-- The three priorities the data model defines. -/
def definedPriorities : List JSVal := [.str "High", .str "Medium", .str "Low"]

/-- A driver whose `mongoose.connect` returns a promise, with a fixed in-memory URI. -/
def promiseEnv : Env :=
  { connectHasOnce := false
    memoryServerUri := fun _ => .str "mongodb://127.0.0.1:41234/eventually" }

/-- A driver whose `mongoose.connect` returns an object with a `once` method. -/
def eventEnv : Env :=
  { connectHasOnce := true
    memoryServerUri := fun _ => .str "mongodb://127.0.0.1:41234/eventually" }

/-- Options with an override next to host, port and credentials. -/
def overrideOptions : Options :=
  { connectionString := .str "mongodb://db.example:27017/prod"
    host := .str "h"
    port := .num ⟨1, by decide⟩
    user := .str "u"
    password := .str "p" }

/-- Options with an override and the test switch. -/
def overrideTestOptions : Options :=
  { connectionString := .str "mongodb://db.example:27017/prod"
    test := .bool true }

/-- Options whose override is the empty string. -/
def emptyOverrideOptions : Options :=
  { connectionString := .str "" }

/-- Options with credentials and a numeric port. -/
def credentialOptions : Options :=
  { user := .str "u"
    password := .str "p"
    port := .num ⟨8080, by decide⟩ }

/-- Three client calls issued before the connection is there, with an 'open'
signal in between. -/
def burst : List Event :=
  [.call .awaitOnly, .opened, .call (.removeActionById (.num ⟨3, by decide⟩)),
    .call (.getCurrentAction ["A"])]

/-- A call, then the connect promise rejects, then the store comes up: an 'open'
signal and a late resolution attempt. -/
def failedOpenPromise : List Event :=
  [.call (.getCurrentAction ["A"]), .connectRejected, .opened, .connectResolved]

/-- A call, then the connection reports an error, then it reports 'open'. -/
def failedOpenEvents : List Event :=
  [.call (.getCurrentAction ["A"]), .errored, .opened]

/-- A connector whose connect promise has resolved. -/
def availableConnector : State := run (construct promiseEnv {}) [.connectResolved]

/-- Three stored actions dated 3, 1, 2 with actions A, B, A. -/
def sampleDocs : List ActionDoc :=
  [ { id := 0, appId := "app", date := 3, action := "A", actionState := .null, priority := "Medium" },
    { id := 1, appId := "app", date := 1, action := "B", actionState := .null, priority := "Medium" },
    { id := 2, appId := "app", date := 2, action := "A", actionState := .null, priority := "Medium" } ]

/-! ## Predicates on states -/

/-- The `awaitDatabase` call a listener belongs to, if any. -/
def listenerId : Listener → Option Nat
  | .ctor => none
  | .waiter id _ => some id

/-- Two states agree on everything the gate reads or writes. -/
def SameGate (s t : State) : Prop :=
  s.databaseAvailable = t.databaseAvailable ∧ s.modelsLoaded = t.modelsLoaded ∧
    s.listeners = t.listeners ∧ s.nextId = t.nextId ∧ s.emits = t.emits ∧
    s.issues = t.issues ∧ s.resolved = t.resolved ∧ s.storeCalls = t.storeCalls

/-- What holds in every state a connector can reach. -/
structure Inv (s : State) : Prop where
  issue_bound : ∀ i ∈ s.issues, i.id < s.nextId ∧ i.emits ≤ s.emits
  resolved_after : ∀ r ∈ s.resolved, r.id < s.nextId ∧ 0 < r.emits ∧
    ∀ i ∈ s.issues, i.id = r.id → i.available = false → i.emits < r.emits
  call_after : ∀ c ∈ s.storeCalls, c.id < s.nextId ∧ 0 < c.emits ∧ c.call ≠ none ∧
    ∀ i ∈ s.issues, i.id = c.id → i.available = false → i.emits < c.emits
  available_pos : s.databaseAvailable = true → 0 < s.emits ∧ s.modelsLoaded = true
  listeners_shape : s.listeners.map listenerId =
    if s.databaseAvailable then [] else none :: (List.range s.nextId).map some
  resolved_ids : s.resolved.map Resolution.id =
    if s.databaseAvailable then List.range s.nextId else []
  resolved_le : ∀ r ∈ s.resolved, r.emits ≤ s.emits
  call_le : ∀ c ∈ s.storeCalls, c.emits ≤ s.emits
  issues_unavailable : s.databaseAvailable = false → ∀ i ∈ s.issues, i.available = false

/-- Whether an event is a client call. -/
def Event.isCall : Event → Bool
  | .call _ => true
  | _ => false

/-- The connector can no longer become available: nothing is left that would emit
'databaseAvailable', and the flag is not set. -/
def Stuck (s : State) : Prop :=
  s.thenPending = false ∧ s.databaseAvailable = false

/-! ## Option handling and record building -/

/-- C6: when the argument of createNewAction has no priority, the record saved has
priority 'Medium' and the appId, date, action and actionState of the argument; this
is the store call issued as soon as the gate resolves. -/
theorem createNewAction_default_priority (actionData : ActionData)
    (h : actionData.priority = .undefined) :
    storeCallOf (.createNewAction actionData) =
        some (.save { appId := actionData.appId, date := actionData.date,
                      action := actionData.action, actionState := actionData.actionState,
                      priority := .str "Medium" }) ∧
      (newActionFields actionData).priority = .str "Medium" ∧
      (newActionFields actionData).appId = actionData.appId ∧
      (newActionFields actionData).date = actionData.date ∧
      (newActionFields actionData).action = actionData.action ∧
      (newActionFields actionData).actionState = actionData.actionState := by
  simp [storeCallOf, newActionFields, JSVal.or, JSVal.truthy, h]

/-- Witness for C6: an argument without priority. -/
theorem createNewAction_default_priority_witness :
    ({ appId := .str "app", date := .num ⟨7, by decide⟩, action := .str "A",
       actionState := .str "new" } : ActionData).priority = .undefined ∧
    storeCallOf (.createNewAction { appId := .str "app", date := .num ⟨7, by decide⟩, action := .str "A",
                                    actionState := .str "new" }) =
      some (.save { appId := .str "app", date := .num ⟨7, by decide⟩, action := .str "A",
                    actionState := .str "new", priority := .str "Medium" }) :=
  ⟨rfl, (createNewAction_default_priority _ rfl).1⟩

/-- Line 23 on a falsy priority. -/
theorem priority_of_falsy (actionData : ActionData)
    (h : actionData.priority.truthy = false) :
    (newActionFields actionData).priority = .str "Medium" := by
  simp [newActionFields, JSVal.or, h]

/-- Line 23 on a truthy priority. -/
theorem priority_of_truthy (actionData : ActionData)
    (h : actionData.priority.truthy = true) :
    (newActionFields actionData).priority = actionData.priority := by
  simp [newActionFields, JSVal.or, h]

/-- C7, as stated, fails: a priority outside the three defined values is copied
into the record unchanged. -/
theorem createNewAction_keeps_unlisted_priority :
    (newActionFields { priority := .str "Urgent" }).priority = .str "Urgent" ∧
      (newActionFields { priority := .str "Urgent" }).priority ∉ definedPriorities := by
  decide

/-- C7, amended: the priority of the record createNewAction builds is the priority
of the argument when that is truthy and 'Medium' otherwise; it is never undefined
(nor any other falsy value), and it is one of High, Medium, Low whenever the
argument gives one of these three or a falsy priority. -/
theorem createNewAction_priority_set (actionData : ActionData) :
    (newActionFields actionData).priority =
        (if actionData.priority.truthy then actionData.priority else .str "Medium") ∧
      (newActionFields actionData).priority.truthy = true ∧
      (newActionFields actionData).priority ≠ .undefined ∧
      (actionData.priority.truthy = false ∨ actionData.priority ∈ definedPriorities →
        (newActionFields actionData).priority ∈ definedPriorities) := by
  refine ⟨rfl, ?_, ?_, ?_⟩
  · cases h : actionData.priority.truthy
    · rw [priority_of_falsy actionData h]
      decide
    · rw [priority_of_truthy actionData h]
      exact h
  · cases h : actionData.priority.truthy
    · rw [priority_of_falsy actionData h]
      decide
    · rw [priority_of_truthy actionData h]
      intro hu
      rw [hu] at h
      exact absurd h (by decide)
  · rintro (h | h)
    · rw [priority_of_falsy actionData h]
      decide
    · cases ht : actionData.priority.truthy
      · rw [priority_of_falsy actionData ht]
        decide
      · rw [priority_of_truthy actionData ht]
        exact h

/-- Witness for the amended C7: a 'Low' priority is kept and is a defined one. -/
theorem createNewAction_priority_set_witness :
    (newActionFields { priority := .str "Low" }).priority ∈ definedPriorities :=
  (createNewAction_priority_set { priority := .str "Low" }).2.2.2 (Or.inr (by decide))

/-- C8, as stated, fails: with `test` set, the connection is opened with the URI
of the in-memory server, not with the override; and an override that is present
but empty is replaced by the composed string. -/
theorem override_not_used_in_test_mode :
    (construct promiseEnv overrideTestOptions).connectionString
      = .str "mongodb://db.example:27017/prod" ∧
    (construct promiseEnv overrideTestOptions).connectCalls.map ConnectCall.uri
      = [.str "mongodb://127.0.0.1:41234/eventually"] ∧
    (construct promiseEnv overrideTestOptions).connectCalls.map ConnectCall.uri
      ≠ [overrideTestOptions.connectionString] ∧
    emptyOverrideOptions.connectionString ≠ .undefined ∧
    (construct promiseEnv emptyOverrideOptions).connectionString
      = .str "mongodb://127.0.0.1:27017/eventually" ∧
    (construct promiseEnv emptyOverrideOptions).connectionString
      ≠ emptyOverrideOptions.connectionString := by
  decide

/-- C8, amended: when `options.connectionString` is truthy (a non-empty string),
the constructor's connection string is that value whatever the other options are,
and `_openConnection` is called with it once; `mongoose.connect` receives it when
`options.test` is falsy, and the in-memory server's URI when `options.test` is
truthy. -/
theorem override_takes_precedence (env : Env) (o : Options)
    (h : o.connectionString.truthy = true) :
    (construct env o).connectionString = o.connectionString ∧
      (construct env o).openUris = [o.connectionString] ∧
      (o.test.truthy = false →
        (construct env o).connectCalls.map ConnectCall.uri = [o.connectionString]) ∧
      (o.test.truthy = true →
        (construct env o).connectCalls.map ConnectCall.uri
          = [env.memoryServerUri (dbNameOf o)]) := by
  have hc : connectionStringOf o = o.connectionString := by simp [connectionStringOf, h]
  refine ⟨?_, ?_, ?_, ?_⟩
  · simp only [construct, _setupMongooseConnections, _openConnection,
      _createMongooseConnection, dbHasOnce]
    split <;> split <;> simp [hc]
  · simp only [construct, _setupMongooseConnections, _openConnection,
      _createMongooseConnection, dbHasOnce]
    split <;> split <;> simp [hc]
  · intro ht
    simp [construct, _setupMongooseConnections, _openConnection,
      _createMongooseConnection, dbHasOnce, ht, hc]
    split <;> simp
  · intro ht
    simp [construct, _setupMongooseConnections, _openConnection,
      _createMongooseConnection, dbHasOnce, ht]

/-- Witness for the amended C8: an override next to host, port and credentials. -/
theorem override_takes_precedence_witness :
    overrideOptions.connectionString.truthy = true ∧
    (construct eventEnv overrideOptions).connectionString
      = .str "mongodb://db.example:27017/prod" ∧
    (construct eventEnv overrideOptions).connectCalls.map ConnectCall.uri
      = [.str "mongodb://db.example:27017/prod"] :=
  ⟨by decide, (override_takes_precedence eventEnv overrideOptions (by decide)).1,
    (override_takes_precedence eventEnv overrideOptions (by decide)).2.2.1 (by decide)⟩

/-- The constructor stores the five computed strings unchanged by the set-up. -/
theorem construct_fields (env : Env) (o : Options) :
    (construct env o).host = hostOf o ∧ (construct env o).port = portOf o ∧
      (construct env o).dbName = dbNameOf o ∧
      (construct env o).credentials = credentialsOf o ∧
      (construct env o).connectionString = connectionStringOf o := by
  simp only [construct, _setupMongooseConnections, _openConnection,
    _createMongooseConnection, dbHasOnce]
  split <;> split <;> simp

/-- C9: with no connection-string override (absent or falsy) the constructor's
connection string is 'mongodb://' ++ credentials ++ host ++ ':' ++ port ++ '/' ++
dbName; host, port and dbName are the supplied values, or 127.0.0.1, 27017 and
eventually when none is supplied; the credentials are user ++ ':' ++ password ++ '@'
when user and password are present; empty options give
mongodb://127.0.0.1:27017/eventually. -/
theorem composed_connection_string (env : Env) (o : Options)
    (h : o.connectionString.truthy = false) :
    (construct env o).connectionString =
        .str ("mongodb://" ++ (construct env o).credentials ++ (construct env o).host.toStr
          ++ ":" ++ (construct env o).port.toStr ++ "/" ++ (construct env o).dbName.toStr) ∧
      (construct env o).host = (if o.host.truthy then o.host else .str "127.0.0.1") ∧
      (construct env o).port = (if o.port.truthy then o.port else .str "27017") ∧
      (construct env o).dbName = (if o.dbName.truthy then o.dbName else .str "eventually") ∧
      (o.host = .undefined → (construct env o).host = .str "127.0.0.1") ∧
      (o.port = .undefined → (construct env o).port = .str "27017") ∧
      (o.dbName = .undefined → (construct env o).dbName = .str "eventually") ∧
      (o.user.truthy = true → o.password.truthy = true →
        (construct env o).credentials = o.user.toStr ++ ":" ++ o.password.toStr ++ "@") ∧
      (o.user.truthy = true → o.password.truthy = false →
        (construct env o).credentials = o.user.toStr ++ "@") ∧
      (o.user.truthy = false → (construct env o).credentials = "") ∧
      (construct env {}).connectionString = .str "mongodb://127.0.0.1:27017/eventually" := by
  obtain ⟨hh, hp, hd, hc, hs⟩ := construct_fields env o
  rw [hh, hp, hd, hc, hs]
  refine ⟨?_, rfl, rfl, rfl, ?_, ?_, ?_, ?_, ?_, ?_, ?_⟩
  · simp [connectionStringOf, h, composedString, String.append_assoc]
  · intro hu
    simp [hostOf, hu, JSVal.truthy]
  · intro hu
    simp [portOf, hu, JSVal.truthy]
  · intro hu
    simp [dbNameOf, hu, JSVal.truthy]
  · intro hu hq
    simp [credentialsOf, hu, hq, String.append_assoc]
  · intro hu hq
    simp [credentialsOf, hu, hq]
  · intro hu
    simp [credentialsOf, hu]
  · rw [(construct_fields env {}).2.2.2.2]
    decide

/-- Witness for C9: credentials and a numeric port, no override. -/
theorem composed_connection_string_witness :
    credentialOptions.connectionString.truthy = false ∧
    (construct promiseEnv credentialOptions).connectionString
      = .str "mongodb://u:p@127.0.0.1:8080/eventually" :=
  ⟨by decide, (composed_connection_string promiseEnv credentialOptions (by decide)).1.trans
    (by decide)⟩

/-! ## The query of getCurrentAction -/

/-- C10: getCurrentAction issues the find-and-sort query, and on every stored
collection and every set of action types its result consists of exactly the stored
actions whose action is in the set (same elements, same multiplicities), ordered
non-decreasing by date; no types give no actions; records dated 3, 1, 2 with
actions A, B, A and types A, B come back as B(1), A(2), A(3). -/
theorem getCurrentAction_filtered_sorted (docs : List ActionDoc)
    (availableActions : List String) :
    storeCallOf (.getCurrentAction availableActions)
        = some (.findInSortByDateAsc availableActions) ∧
      (getCurrentAction docs availableActions).Perm
        (docs.filter (fun d => decide (d.action ∈ availableActions))) ∧
      (∀ d, d ∈ getCurrentAction docs availableActions ↔
        d ∈ docs ∧ d.action ∈ availableActions) ∧
      (getCurrentAction docs availableActions).Sorted (fun a b => a.date ≤ b.date) ∧
      getCurrentAction docs [] = [] ∧
      (getCurrentAction sampleDocs ["A", "B"]).map (fun d => (d.action, d.date))
        = [("B", 1), ("A", 2), ("A", 3)] := by
  have hperm : (getCurrentAction docs availableActions).Perm
      (docs.filter (fun d => decide (d.action ∈ availableActions))) :=
    List.perm_insertionSort dateLe _
  refine ⟨rfl, hperm, ?_, ?_, ?_, ?_⟩
  · intro d
    rw [hperm.mem_iff, List.mem_filter]
    simp
  · exact List.sorted_insertionSort dateLe _
  · simp [getCurrentAction, findActionIn, sortByDateAsc]
  · decide

/-! ## The gate -/

/-- Resolving a waiter appends one resolution and at most one store call. -/
theorem resolveWaiter_spec (s : State) (id : Nat) (op : Op) :
    (resolveWaiter s id op).databaseAvailable = s.databaseAvailable ∧
      (resolveWaiter s id op).modelsLoaded = s.modelsLoaded ∧
      (resolveWaiter s id op).listeners = s.listeners ∧
      (resolveWaiter s id op).nextId = s.nextId ∧
      (resolveWaiter s id op).emits = s.emits ∧
      (resolveWaiter s id op).issues = s.issues ∧
      (resolveWaiter s id op).thenPending = s.thenPending ∧
      (resolveWaiter s id op).resolved = s.resolved ++ [{ id := id, emits := s.emits }] ∧
      ∃ l : List Issued, (resolveWaiter s id op).storeCalls = s.storeCalls ++ l ∧
        ∀ c ∈ l, c.id = id ∧ c.emits = s.emits ∧ (s.modelsLoaded = true → c.call ≠ none) := by
  unfold resolveWaiter
  split
  · exact ⟨rfl, rfl, rfl, rfl, rfl, rfl, rfl, rfl, [], by simp, by simp⟩
  · refine ⟨rfl, rfl, rfl, rfl, rfl, rfl, rfl, rfl, _, rfl, ?_⟩
    intro c hc
    simp only [List.mem_singleton] at hc
    subst hc
    refine ⟨rfl, rfl, ?_⟩
    intro hm
    simp [hm]

/-- Running the listeners of a list of waiters resolves them in order and touches
nothing else of the gate. -/
theorem foldl_runListener_waiters (ws : List Listener) :
    ∀ (ids : List Nat) (t : State), ws.map listenerId = ids.map some →
      (ws.foldl runListener t).databaseAvailable = t.databaseAvailable ∧
        (ws.foldl runListener t).modelsLoaded = t.modelsLoaded ∧
        (ws.foldl runListener t).listeners = t.listeners ∧
        (ws.foldl runListener t).nextId = t.nextId ∧
        (ws.foldl runListener t).emits = t.emits ∧
        (ws.foldl runListener t).issues = t.issues ∧
        (ws.foldl runListener t).thenPending = t.thenPending ∧
        (ws.foldl runListener t).resolved =
          t.resolved ++ ids.map (fun id => { id := id, emits := t.emits }) ∧
        ∃ l : List Issued, (ws.foldl runListener t).storeCalls = t.storeCalls ++ l ∧
          ∀ c ∈ l, c.id ∈ ids ∧ c.emits = t.emits ∧
            (t.modelsLoaded = true → c.call ≠ none) := by
  induction ws with
  | nil =>
    intro ids t h
    have hids : ids = [] := by
      cases ids with
      | nil => rfl
      | cons a as => simp at h
    subst hids
    exact ⟨rfl, rfl, rfl, rfl, rfl, rfl, rfl, by simp, [], by simp, by simp⟩
  | cons w ws ih =>
    intro ids t h
    cases ids with
    | nil => simp at h
    | cons a as =>
      simp only [List.map_cons, List.cons.injEq] at h
      obtain ⟨hw, hws⟩ := h
      cases w with
      | ctor => simp [listenerId] at hw
      | waiter id op =>
        simp only [listenerId, Option.some.injEq] at hw
        subst hw
        obtain ⟨r1, r2, r3, r4, r5, r6, r7, r8, l1, r9, r10⟩ := resolveWaiter_spec t id op
        obtain ⟨f1, f2, f3, f4, f5, f6, f7, f8, l2, f9, f10⟩ :=
          ih as (resolveWaiter t id op) hws
        simp only [List.foldl_cons, runListener]
        refine ⟨f1.trans r1, f2.trans r2, f3.trans r3, f4.trans r4, f5.trans r5,
          f6.trans r6, f7.trans r7, ?_, l1 ++ l2, ?_, ?_⟩
        · rw [f8, r8, r5]
          simp
        · rw [f9, r9]
          simp
        · intro c hc
          rcases List.mem_append.mp hc with hc | hc
          · obtain ⟨c1, c2, c3⟩ := r10 c hc
            exact ⟨by simp [c1], c2, c3⟩
          · obtain ⟨c1, c2, c3⟩ := f10 c hc
            exact ⟨by simp [c1], c2.trans r5, fun hm => c3 (r2.trans hm)⟩

/-- Opening a connection leaves the gate alone. -/
theorem openConnection_sameGate (s : State) (uri : JSVal) :
    SameGate (_openConnection s uri) s ∧
      (_openConnection s uri).thenPending = s.thenPending := by
  cases h : s.options.test.truthy <;>
    simp [_openConnection, _createMongooseConnection, SameGate, h]

/-- The invariant only looks at the gate. -/
theorem Inv.of_sameGate {s t : State} (h : SameGate t s) (hs : Inv s) : Inv t := by
  obtain ⟨h1, h2, h3, h4, h5, h6, h7, h8⟩ := h
  constructor
  · rw [h6, h4, h5]
    exact hs.issue_bound
  · rw [h7, h4, h6]
    exact hs.resolved_after
  · rw [h8, h4, h6]
    exact hs.call_after
  · rw [h1, h5, h2]
    exact hs.available_pos
  · rw [h3, h1, h4]
    exact hs.listeners_shape
  · rw [h7, h1, h4]
    exact hs.resolved_ids
  · rw [h7, h5]
    exact hs.resolved_le
  · rw [h8, h5]
    exact hs.call_le
  · rw [h1, h6]
    exact hs.issues_unavailable

/-- The three connection handlers and the settling of the promise by rejection
leave the gate alone. -/
theorem handlers_sameGate (s : State) :
    SameGate (_mongooseError s) s ∧ SameGate (_mongooseDisconnected s) s ∧
      (∀ e, SameGate (_mongooseOpened s e) s) ∧
      (_mongooseError s).thenPending = s.thenPending ∧
      (_mongooseDisconnected s).thenPending = s.thenPending ∧
      (∀ e, (_mongooseOpened s e).thenPending = s.thenPending) := by
  refine ⟨(openConnection_sameGate s _).1, ?_, ?_, (openConnection_sameGate s _).2, ?_, ?_⟩
  · unfold _mongooseDisconnected
    obtain ⟨h1, h2, h3, h4, h5, h6, h7, h8⟩ := (openConnection_sameGate
      ({ s with mongooseDebug := .null } : State) s.connectionString).1
    exact ⟨h1, h2, h3, h4, h5, h6, h7, h8⟩
  · intro e
    unfold _mongooseOpened SameGate
    split <;> simp
  · unfold _mongooseDisconnected
    exact (openConnection_sameGate ({ s with mongooseDebug := .null } : State)
      s.connectionString).2
  · intro e
    unfold _mongooseOpened
    split <;> rfl

/-- A freshly constructed connector satisfies the invariant, is not available and
has resolved nothing. -/
theorem construct_inv (env : Env) (o : Options) :
    Inv (construct env o) ∧ (construct env o).databaseAvailable = false ∧
      (construct env o).nextId = 0 ∧ (construct env o).emits = 0 ∧
      (construct env o).listeners = [.ctor] ∧ (construct env o).resolved = [] ∧
      (construct env o).storeCalls = [] ∧ (construct env o).issues = [] := by
  have key : (construct env o).databaseAvailable = false ∧
      (construct env o).nextId = 0 ∧ (construct env o).emits = 0 ∧
      (construct env o).listeners = [.ctor] ∧ (construct env o).resolved = [] ∧
      (construct env o).storeCalls = [] ∧ (construct env o).issues = [] := by
    simp only [construct, _setupMongooseConnections, _openConnection,
      _createMongooseConnection, dbHasOnce]
    split <;> split <;> simp
  obtain ⟨k1, k2, k3, k4, k5, k6, k7⟩ := key
  refine ⟨?_, k1, k2, k3, k4, k5, k6, k7⟩
  constructor
  · rw [k7]
    simp
  · rw [k5]
    simp
  · rw [k6]
    simp
  · rw [k1]
    simp
  · rw [k4, k1, k2]
    simp [listenerId]
  · rw [k5, k1]
    simp
  · rw [k5]
    simp
  · rw [k6]
    simp
  · rw [k7]
    simp

/-- Lines 38-39: with the flag set the call resolves at once and registers nothing. -/
theorem awaitDatabase_available (s : State) (op : Op) (h : s.databaseAvailable = true) :
    (awaitDatabase s op).databaseAvailable = true ∧
      (awaitDatabase s op).modelsLoaded = s.modelsLoaded ∧
      (awaitDatabase s op).listeners = s.listeners ∧
      (awaitDatabase s op).nextId = s.nextId + 1 ∧
      (awaitDatabase s op).emits = s.emits ∧
      (awaitDatabase s op).issues =
        s.issues ++ [{ id := s.nextId, available := true, emits := s.emits }] ∧
      (awaitDatabase s op).thenPending = s.thenPending ∧
      (awaitDatabase s op).resolved = s.resolved ++ [{ id := s.nextId, emits := s.emits }] ∧
      ∃ l : List Issued, (awaitDatabase s op).storeCalls = s.storeCalls ++ l ∧
        ∀ c ∈ l, c.id = s.nextId ∧ c.emits = s.emits ∧
          (s.modelsLoaded = true → c.call ≠ none) := by
  have hd : awaitDatabase s op = resolveWaiter
      ({ s with nextId := s.nextId + 1
                issues := s.issues ++
                  [{ id := s.nextId, available := s.databaseAvailable, emits := s.emits }] } :
        State) s.nextId op := by
    simp [awaitDatabase, h]
  rw [hd]
  obtain ⟨r1, r2, r3, r4, r5, r6, r7, r8, l, r9, r10⟩ := resolveWaiter_spec
    ({ s with nextId := s.nextId + 1
              issues := s.issues ++
                [{ id := s.nextId, available := s.databaseAvailable, emits := s.emits }] } :
      State) s.nextId op
  refine ⟨r1.trans h, r2, r3, r4, r5, ?_, r7, r8, l, r9, r10⟩
  rw [r6, h]

/-- Lines 40-44: with the flag not set the call only registers a `once` listener. -/
theorem awaitDatabase_unavailable (s : State) (op : Op) (h : s.databaseAvailable = false) :
    awaitDatabase s op =
      { s with nextId := s.nextId + 1
               issues := s.issues ++ [{ id := s.nextId, available := false, emits := s.emits }]
               listeners := s.listeners ++ [.waiter s.nextId op] } := by
  simp [awaitDatabase, h]

/-- A call of a gated method keeps the invariant. -/
theorem awaitDatabase_inv (s : State) (op : Op) (hs : Inv s) : Inv (awaitDatabase s op) := by
  cases h : s.databaseAvailable
  · rw [awaitDatabase_unavailable s op h]
    constructor
    · intro i hi
      simp only [List.mem_append, List.mem_singleton] at hi
      rcases hi with hi | hi
      · have := hs.issue_bound i hi
        exact ⟨Nat.lt_succ_of_lt this.1, this.2⟩
      · subst hi
        exact ⟨Nat.lt_succ_self _, Nat.le_refl _⟩
    · intro r hr
      obtain ⟨b1, b2, b3⟩ := hs.resolved_after r hr
      refine ⟨Nat.lt_succ_of_lt b1, b2, ?_⟩
      intro i hi
      simp only [List.mem_append, List.mem_singleton] at hi
      rcases hi with hi | hi
      · exact b3 i hi
      · subst hi
        intro he
        exact absurd he (Nat.ne_of_gt b1)
    · intro c hc
      obtain ⟨b1, b2, b3, b4⟩ := hs.call_after c hc
      refine ⟨Nat.lt_succ_of_lt b1, b2, b3, ?_⟩
      intro i hi
      simp only [List.mem_append, List.mem_singleton] at hi
      rcases hi with hi | hi
      · exact b4 i hi
      · subst hi
        intro he
        exact absurd he (Nat.ne_of_gt b1)
    · intro ha
      exact hs.available_pos ha
    · have := hs.listeners_shape
      rw [h] at this
      simp only [List.map_append, this, h, List.range_succ]
      simp [listenerId]
    · have := hs.resolved_ids
      rw [h] at this
      simp only [this, h]
      simp
    · exact hs.resolved_le
    · exact hs.call_le
    · intro _ i hi
      simp only [List.mem_append, List.mem_singleton] at hi
      rcases hi with hi | hi
      · exact hs.issues_unavailable h i hi
      · subst hi
        rfl
  · obtain ⟨a1, a2, a3, a4, a5, a6, a7, a8, l, a9, a10⟩ := awaitDatabase_available s op h
    constructor
    · intro i hi
      rw [a6] at hi
      rw [a4, a5]
      simp only [List.mem_append, List.mem_singleton] at hi
      rcases hi with hi | hi
      · have := hs.issue_bound i hi
        exact ⟨Nat.lt_succ_of_lt this.1, this.2⟩
      · subst hi
        exact ⟨Nat.lt_succ_self _, Nat.le_refl _⟩
    · intro r hr
      rw [a8] at hr
      rw [a4, a6]
      simp only [List.mem_append, List.mem_singleton] at hr
      rcases hr with hr | hr
      · obtain ⟨b1, b2, b3⟩ := hs.resolved_after r hr
        refine ⟨Nat.lt_succ_of_lt b1, b2, ?_⟩
        intro i hi
        simp only [List.mem_append, List.mem_singleton] at hi
        rcases hi with hi | hi
        · exact b3 i hi
        · subst hi
          intro _ hf
          exact absurd hf (by simp)
      · subst hr
        refine ⟨Nat.lt_succ_self _, (hs.available_pos h).1, ?_⟩
        intro i hi
        simp only [List.mem_append, List.mem_singleton] at hi
        rcases hi with hi | hi
        · intro he
          exact absurd he (Nat.ne_of_lt (hs.issue_bound i hi).1)
        · subst hi
          intro _ hf
          exact absurd hf (by simp)
    · intro c hc
      rw [a9] at hc
      rw [a4, a6]
      rcases List.mem_append.mp hc with hc | hc
      · obtain ⟨b1, b2, b3, b4⟩ := hs.call_after c hc
        refine ⟨Nat.lt_succ_of_lt b1, b2, b3, ?_⟩
        intro i hi
        simp only [List.mem_append, List.mem_singleton] at hi
        rcases hi with hi | hi
        · exact b4 i hi
        · subst hi
          intro _ hf
          exact absurd hf (by simp)
      · obtain ⟨c1, c2, c3⟩ := a10 c hc
        refine ⟨by rw [c1]; exact Nat.lt_succ_self _, by rw [c2]; exact (hs.available_pos h).1,
          c3 (hs.available_pos h).2, ?_⟩
        intro i hi
        simp only [List.mem_append, List.mem_singleton] at hi
        rcases hi with hi | hi
        · intro he
          rw [c1] at he
          exact absurd he (Nat.ne_of_lt (hs.issue_bound i hi).1)
        · subst hi
          intro _ hf
          exact absurd hf (by simp)
    · intro _
      rw [a5, a2]
      exact hs.available_pos h
    · have := hs.listeners_shape
      rw [h] at this
      rw [a3, a1]
      simpa using this
    · have := hs.resolved_ids
      rw [h] at this
      rw [a8, a1, a4]
      simp [this, List.range_succ]
    · intro r hr
      rw [a8] at hr
      rw [a5]
      simp only [List.mem_append, List.mem_singleton] at hr
      rcases hr with hr | hr
      · exact hs.resolved_le r hr
      · subst hr
        exact Nat.le_refl _
    · intro c hc
      rw [a9] at hc
      rw [a5]
      rcases List.mem_append.mp hc with hc | hc
      · exact hs.call_le c hc
      · rw [(a10 c hc).2.1]
    · intro hf
      rw [a1] at hf
      exact absurd hf (by simp)

/-- The first emission of 'databaseAvailable': the constructor's listener sets the
flag, then every registered waiter is resolved, in order, and none stays. -/
theorem emit_unavailable (s : State) (hs : Inv s) (h : s.databaseAvailable = false) :
    (emitDatabaseAvailable s).databaseAvailable = true ∧
      (emitDatabaseAvailable s).modelsLoaded = true ∧
      (emitDatabaseAvailable s).listeners = [] ∧
      (emitDatabaseAvailable s).nextId = s.nextId ∧
      (emitDatabaseAvailable s).emits = s.emits + 1 ∧
      (emitDatabaseAvailable s).issues = s.issues ∧
      (emitDatabaseAvailable s).resolved =
        (List.range s.nextId).map (fun id => { id := id, emits := s.emits + 1 }) ∧
      ∃ l : List Issued, (emitDatabaseAvailable s).storeCalls = s.storeCalls ++ l ∧
        ∀ c ∈ l, c.id < s.nextId ∧ c.emits = s.emits + 1 ∧ c.call ≠ none := by
  have hshape := hs.listeners_shape
  have hres := hs.resolved_ids
  rw [h] at hshape hres
  simp only [Bool.false_eq_true, if_false] at hshape hres
  have hres0 : s.resolved = [] := List.map_eq_nil_iff.mp hres
  cases hl : s.listeners with
  | nil => simp [hl] at hshape
  | cons x ws =>
    rw [hl] at hshape
    simp only [List.map_cons, List.cons.injEq] at hshape
    obtain ⟨hx, hws⟩ := hshape
    cases x with
    | waiter id op => simp [listenerId] at hx
    | ctor =>
      obtain ⟨f1, f2, f3, f4, f5, f6, _, f8, l, f9, f10⟩ := foldl_runListener_waiters ws
        (List.range s.nextId)
        ({ s with listeners := [], emits := s.emits + 1, databaseAvailable := true,
                  modelsLoaded := true } : State) hws
      have he : emitDatabaseAvailable s = ws.foldl runListener
          ({ s with listeners := [], emits := s.emits + 1, databaseAvailable := true,
                    modelsLoaded := true } : State) := by
        simp [emitDatabaseAvailable, hl, runListener]
      rw [he]
      refine ⟨f1, f2, f3, f4, f5, f6, ?_, l, f9, ?_⟩
      · rw [f8]
        simp [hres0]
      · intro c hc
        obtain ⟨c1, c2, c3⟩ := f10 c hc
        exact ⟨List.mem_range.mp c1, c2, c3 rfl⟩

/-- An emission while the flag is set finds no listener. -/
theorem emit_available (s : State) (hs : Inv s) (h : s.databaseAvailable = true) :
    emitDatabaseAvailable s = { s with listeners := [], emits := s.emits + 1 } := by
  have hshape := hs.listeners_shape
  rw [h] at hshape
  simp only [if_true] at hshape
  have hl : s.listeners = [] := List.map_eq_nil_iff.mp hshape
  simp [emitDatabaseAvailable, hl]

/-- An emission of 'databaseAvailable' keeps the invariant. -/
theorem emit_inv (s : State) (hs : Inv s) : Inv (emitDatabaseAvailable s) := by
  cases h : s.databaseAvailable
  · obtain ⟨e1, e2, e3, e4, e5, e6, e7, l, e8, e9⟩ := emit_unavailable s hs h
    constructor
    · intro i hi
      rw [e6] at hi
      rw [e4, e5]
      have := hs.issue_bound i hi
      exact ⟨this.1, Nat.le_succ_of_le this.2⟩
    · intro r hr
      rw [e7] at hr
      rw [e4, e6]
      obtain ⟨id, hid, rfl⟩ := List.mem_map.mp hr
      refine ⟨List.mem_range.mp hid, Nat.succ_pos _, ?_⟩
      intro i hi _ _
      exact Nat.lt_succ_of_le (hs.issue_bound i hi).2
    · intro c hc
      rw [e8] at hc
      rw [e4, e6]
      rcases List.mem_append.mp hc with hc | hc
      · exact hs.call_after c hc
      · obtain ⟨c1, c2, c3⟩ := e9 c hc
        refine ⟨c1, by rw [c2]; exact Nat.succ_pos _, c3, ?_⟩
        intro i hi _ _
        rw [c2]
        exact Nat.lt_succ_of_le (hs.issue_bound i hi).2
    · intro _
      rw [e5, e2]
      exact ⟨Nat.succ_pos _, rfl⟩
    · rw [e3, e1]
      simp
    · rw [e7, e1, e4]
      simp [Function.comp_def]
    · intro r hr
      rw [e7] at hr
      rw [e5]
      obtain ⟨id, _, rfl⟩ := List.mem_map.mp hr
      exact Nat.le_refl _
    · intro c hc
      rw [e8] at hc
      rw [e5]
      rcases List.mem_append.mp hc with hc | hc
      · exact Nat.le_succ_of_le (hs.call_le c hc)
      · rw [(e9 c hc).2.1]
    · intro hf
      rw [e1] at hf
      exact absurd hf (by simp)
  · rw [emit_available s hs h]
    constructor
    · intro i hi
      have := hs.issue_bound i hi
      exact ⟨this.1, Nat.le_succ_of_le this.2⟩
    · exact hs.resolved_after
    · exact hs.call_after
    · intro _
      exact ⟨Nat.succ_pos _, (hs.available_pos h).2⟩
    · simp [h]
    · exact hs.resolved_ids
    · intro r hr
      exact Nat.le_succ_of_le (hs.resolved_le r hr)
    · intro c hc
      exact Nat.le_succ_of_le (hs.call_le c hc)
    · intro hf
      exact absurd (h.symm.trans hf) (by simp)

/-- Settling the promise and removing the 'open' listener leave the gate alone. -/
theorem settled_sameGate (s : State) :
    SameGate (promiseSettled s) s ∧ SameGate (openListenerRemoved s) s :=
  ⟨⟨rfl, rfl, rfl, rfl, rfl, rfl, rfl, rfl⟩, ⟨rfl, rfl, rfl, rfl, rfl, rfl, rfl, rfl⟩⟩

/-- Every step keeps the invariant. -/
theorem step_inv (s : State) (e : Event) (hs : Inv s) : Inv (step s e) := by
  cases e with
  | call op => exact awaitDatabase_inv s op hs
  | connectResolved =>
    simp only [step]
    split
    · exact emit_inv _ (Inv.of_sameGate (settled_sameGate s).1 hs)
    · exact hs
  | connectRejected =>
    simp only [step]
    split
    · exact Inv.of_sameGate (settled_sameGate s).1 hs
    · exact hs
  | opened =>
    simp only [step]
    split
    · exact Inv.of_sameGate ((handlers_sameGate _).2.2.1 _)
        (Inv.of_sameGate (settled_sameGate s).2 hs)
    · exact hs
  | errored =>
    simp only [step]
    split
    · exact Inv.of_sameGate (handlers_sameGate s).1 hs
    · exact hs
  | disconnected =>
    simp only [step]
    split
    · exact Inv.of_sameGate (handlers_sameGate s).2.1 hs
    · exact hs

/-- Every run keeps the invariant. -/
theorem run_inv (events : List Event) : ∀ s : State, Inv s → Inv (run s events) := by
  induction events with
  | nil => intro s hs; exact hs
  | cons e es ih => intro s hs; exact ih (step s e) (step_inv s e hs)

/-- Running a sequence and then another is running their concatenation. -/
theorem run_append (s : State) (xs ys : List Event) :
    run s (xs ++ ys) = run (run s xs) ys := by
  simp [run, List.foldl_append]

/-- Only a client call issues an `awaitDatabase` call. -/
theorem step_counts (s : State) (e : Event) (hs : Inv s) :
    (step s e).nextId = s.nextId + (if e.isCall then 1 else 0) ∧
      (step s e).issues.length = s.issues.length + (if e.isCall then 1 else 0) := by
  cases e with
  | call op =>
    cases h : s.databaseAvailable
    · simp [step, awaitDatabase_unavailable s op h, Event.isCall]
    · obtain ⟨_, _, _, a4, _, a6, _⟩ := awaitDatabase_available s op h
      simp [step, a4, a6, Event.isCall]
  | connectResolved =>
    simp only [step, Event.isCall]
    split
    · have hi : Inv (promiseSettled s) := Inv.of_sameGate (settled_sameGate s).1 hs
      cases h : (promiseSettled s).databaseAvailable
      · obtain ⟨_, _, _, e4, _, e6, _⟩ := emit_unavailable _ hi h
        have e4k : (emitDatabaseAvailable (promiseSettled s)).nextId = s.nextId := e4
        have e6k : (emitDatabaseAvailable (promiseSettled s)).issues = s.issues := e6
        simp [e4k, e6k]
      · rw [emit_available _ hi h]
        simp [promiseSettled]
    · simp
  | connectRejected =>
    simp only [step, Event.isCall]
    split <;> simp [promiseSettled]
  | opened =>
    simp only [step, Event.isCall]
    split
    · obtain ⟨_, _, _, g4, _, g6, _⟩ := (handlers_sameGate
        (openListenerRemoved s)).2.2.1 JSVal.undefined
      have g4k : (_mongooseOpened (openListenerRemoved s)
          JSVal.undefined).nextId = s.nextId := g4
      have g6k : (_mongooseOpened (openListenerRemoved s)
          JSVal.undefined).issues = s.issues := g6
      simp [g4k, g6k]
    · simp
  | errored =>
    simp only [step, Event.isCall]
    split
    · obtain ⟨_, _, _, g4, _, g6, _⟩ := (handlers_sameGate s).1
      simp [g4, g6]
    · simp
  | disconnected =>
    simp only [step, Event.isCall]
    split
    · obtain ⟨_, _, _, g4, _, g6, _⟩ := (handlers_sameGate s).2.1
      simp [g4, g6]
    · simp

/-- A run issues as many `awaitDatabase` calls as it has client calls. -/
theorem run_counts (events : List Event) :
    ∀ s : State, Inv s →
      (run s events).nextId = s.nextId + events.countP Event.isCall ∧
        (run s events).issues.length = s.issues.length + events.countP Event.isCall := by
  induction events with
  | nil => intro s _; simp [run]
  | cons e es ih =>
    intro s hs
    obtain ⟨i1, i2⟩ := ih (step s e) (step_inv s e hs)
    obtain ⟨c1, c2⟩ := step_counts s e hs
    have hr : run s (e :: es) = run (step s e) es := rfl
    rw [hr, i1, i2, c1, c2]
    cases he : e.isCall
    · simp [List.countP_cons, he]
    · simp [List.countP_cons, he]
      omega

/-- C1: on a freshly constructed connector, after any sequence of calls and
signals, every resolution of a gate that was entered while the database was not
available, and every store call issued behind such a gate, comes after an emission
of 'databaseAvailable' that is later than the call; as long as no emission has
happened, nothing is resolved and no store call is issued. -/
theorem gate_not_resolved_before_available (env : Env) (o : Options)
    (events : List Event) :
    (∀ i ∈ (run (construct env o) events).issues, i.available = false →
        (∀ r ∈ (run (construct env o) events).resolved, r.id = i.id → i.emits < r.emits) ∧
        (∀ c ∈ (run (construct env o) events).storeCalls, c.id = i.id →
          i.emits < c.emits)) ∧
      ((run (construct env o) events).emits = 0 →
        (run (construct env o) events).resolved = [] ∧
        (run (construct env o) events).storeCalls = []) := by
  have hinv := run_inv events (construct env o) (construct_inv env o).1
  refine ⟨?_, ?_⟩
  · intro i hi ha
    refine ⟨?_, ?_⟩
    · intro r hr he
      exact (hinv.resolved_after r hr).2.2 i hi he.symm ha
    · intro c hc he
      exact (hinv.call_after c hc).2.2.2 i hi he.symm ha
  · intro h0
    refine ⟨?_, ?_⟩
    · apply List.eq_nil_iff_forall_not_mem.mpr
      intro r hr
      have h1 := (hinv.resolved_after r hr).2.1
      have h2 := hinv.resolved_le r hr
      omega
    · apply List.eq_nil_iff_forall_not_mem.mpr
      intro c hc
      have h1 := (hinv.call_after c hc).2.1
      have h2 := hinv.call_le c hc
      omega

/-- C2: when N calls have been issued on a fresh connector while the database was
not available (in any interleaving with signals) and the pending connect promise
then resolves, that one emission resolves the N waiters, each once and in order,
all by this emission, and no listener stays registered. -/
theorem one_transition_resolves_all_waiters (env : Env) (o : Options)
    (events : List Event)
    (h : (run (construct env o) events).databaseAvailable = false)
    (hp : (run (construct env o) events).thenPending = true) :
    (run (construct env o) events).issues.length = events.countP Event.isCall ∧
      (∀ i ∈ (run (construct env o) events).issues, i.available = false) ∧
      (run (construct env o) events).resolved = [] ∧
      (run (construct env o) (events ++ [.connectResolved])).resolved.map Resolution.id
        = List.range (events.countP Event.isCall) ∧
      (run (construct env o) (events ++ [.connectResolved])).resolved.length
        = events.countP Event.isCall ∧
      ((run (construct env o) (events ++ [.connectResolved])).resolved.map
        Resolution.id).Nodup ∧
      (∀ r ∈ (run (construct env o) (events ++ [.connectResolved])).resolved,
        r.emits = (run (construct env o) events).emits + 1) ∧
      (run (construct env o) (events ++ [.connectResolved])).emits
        = (run (construct env o) events).emits + 1 ∧
      (run (construct env o) (events ++ [.connectResolved])).listeners = [] ∧
      (run (construct env o) (events ++ [.connectResolved])).databaseAvailable = true := by
  obtain ⟨hc, k1, k2, k3, k4, k5, k6, k7⟩ := construct_inv env o
  have hinv := run_inv events (construct env o) hc
  obtain ⟨n1, n2⟩ := run_counts events (construct env o) hc
  rw [k2] at n1
  rw [k7] at n2
  simp only [List.length_nil, Nat.zero_add] at n1 n2
  have hres := hinv.resolved_ids
  rw [h] at hres
  simp only [Bool.false_eq_true, if_false] at hres
  have hi : Inv (promiseSettled (run (construct env o) events)) :=
    Inv.of_sameGate (settled_sameGate _).1 hinv
  obtain ⟨e1, _, e3, _, e5, _, e7, _⟩ := emit_unavailable _ hi h
  have hstep : run (construct env o) (events ++ [.connectResolved]) =
      emitDatabaseAvailable (promiseSettled (run (construct env o) events)) := by
    rw [run_append]
    have hr : ∀ s : State, run s [.connectResolved] = step s .connectResolved := fun _ => rfl
    rw [hr]
    simp only [step, hp, if_true]
  have gn : (promiseSettled (run (construct env o) events)).nextId
      = (run (construct env o) events).nextId := rfl
  have ge : (promiseSettled (run (construct env o) events)).emits
      = (run (construct env o) events).emits := rfl
  rw [hstep, e7, e5, e3, e1, gn, ge, n1]
  refine ⟨n2, hinv.issues_unavailable h, List.map_eq_nil_iff.mp hres, ?_, ?_, ?_, ?_,
    rfl, rfl, rfl⟩
  · simp [Function.comp_def]
  · simp
  · simp [Function.comp_def, List.nodup_range]
  · intro r hr
    obtain ⟨id, _, rfl⟩ := List.mem_map.mp hr
    rfl

/-- Witness for C2: three calls, then the promise resolves. -/
theorem one_transition_resolves_all_waiters_witness :
    (run (construct promiseEnv {}) burst).databaseAvailable = false ∧
    (run (construct promiseEnv {}) burst).thenPending = true ∧
    (run (construct promiseEnv {}) (burst ++ [.connectResolved])).resolved.map Resolution.id
      = [0, 1, 2] ∧
    (run (construct promiseEnv {}) (burst ++ [.connectResolved])).listeners = [] :=
  ⟨by decide, by decide,
    (one_transition_resolves_all_waiters promiseEnv {} burst (by decide)
      (by decide)).2.2.2.1.trans (by decide),
    (one_transition_resolves_all_waiters promiseEnv {} burst (by decide)
      (by decide)).2.2.2.2.2.2.2.2.1⟩

/-- C5: when databaseAvailable is set at call time, awaitDatabase resolves in the
same step, at the current emission count, and registers no listener. -/
theorem awaitDatabase_resolves_immediately (s : State) (op : Op)
    (h : s.databaseAvailable = true) :
    (awaitDatabase s op).resolved = s.resolved ++ [{ id := s.nextId, emits := s.emits }] ∧
      (awaitDatabase s op).listeners = s.listeners ∧
      (awaitDatabase s op).emits = s.emits ∧
      (awaitDatabase s op).issues =
        s.issues ++ [{ id := s.nextId, available := true, emits := s.emits }] := by
  obtain ⟨_, _, a3, _, a5, a6, _, a8, _⟩ := awaitDatabase_available s op h
  exact ⟨a8, a3, a5, a6⟩

/-- Witness for C5: a call on a connector whose connect promise has resolved. -/
theorem awaitDatabase_resolves_immediately_witness :
    availableConnector.databaseAvailable = true ∧
    (awaitDatabase availableConnector .awaitOnly).resolved = [{ id := 0, emits := 1 }] ∧
    (awaitDatabase availableConnector .awaitOnly).listeners = [] :=
  ⟨by decide,
    (awaitDatabase_resolves_immediately availableConnector .awaitOnly (by decide)).1.trans
      (by decide),
    (awaitDatabase_resolves_immediately availableConnector .awaitOnly (by decide)).2.1.trans
      (by decide)⟩

/-- Running listeners never clears the flag. -/
theorem foldl_runListener_available (ls : List Listener) :
    ∀ t : State, t.databaseAvailable = true →
      (ls.foldl runListener t).databaseAvailable = true := by
  induction ls with
  | nil => intro t h; exact h
  | cons l ls ih =>
    intro t h
    apply ih
    cases l with
    | ctor => rfl
    | waiter id op => exact (resolveWaiter_spec t id op).1.trans h

/-- No step clears the flag. -/
theorem step_available (s : State) (e : Event) (h : s.databaseAvailable = true) :
    (step s e).databaseAvailable = true := by
  cases e with
  | call op => exact (awaitDatabase_available s op h).1
  | connectResolved =>
    simp only [step]
    split
    · exact foldl_runListener_available _ _ h
    · exact h
  | connectRejected =>
    simp only [step]
    split
    · exact h
    · exact h
  | opened =>
    simp only [step]
    split
    · exact ((handlers_sameGate _).2.2.1 _).1.trans h
    · exact h
  | errored =>
    simp only [step]
    split
    · exact (handlers_sameGate s).1.1.trans h
    · exact h
  | disconnected =>
    simp only [step]
    split
    · exact (handlers_sameGate s).2.1.1.trans h
    · exact h

/-- No run clears the flag. -/
theorem run_available (events : List Event) :
    ∀ s : State, s.databaseAvailable = true → (run s events).databaseAvailable = true := by
  induction events with
  | nil => intro s h; exact h
  | cons e es ih => intro s h; exact ih (step s e) (step_available s e h)

/-- C4, as stated, fails: after the connect promise has resolved, a 'disconnected'
signal leaves databaseAvailable set, whether or not the handler is registered, and a
call made afterwards is resolved at once, with the emission count still 1. -/
theorem disconnected_does_not_close_gate :
    (run (construct promiseEnv {}) [.connectResolved, .disconnected]).databaseAvailable
      = true ∧
    (run (construct promiseEnv {})
      [.connectResolved, .disconnected, .call .awaitOnly]).resolved
      = [{ id := 0, emits := 1 }] ∧
    (run (construct promiseEnv {})
      [.connectResolved, .disconnected, .call .awaitOnly]).listeners = [] ∧
    (run (construct promiseEnv {})
      [.connectResolved, .disconnected, .call .awaitOnly]).emits = 1 ∧
    (_mongooseDisconnected availableConnector).databaseAvailable = true ∧
    (awaitDatabase (_mongooseDisconnected availableConnector) .awaitOnly).resolved
      = [{ id := 0, emits := 1 }] ∧
    (awaitDatabase (_mongooseDisconnected availableConnector) .awaitOnly).listeners = [] := by
  decide

/-- C4, amended: once databaseAvailable is set, a 'disconnected' signal does not
clear it (no sequence of calls and signals does); the handler only opens a fresh
connection with the connection string; an awaitDatabase call made after the signal
resolves at once and registers no listener. -/
theorem disconnected_leaves_gate_open (s : State) (op : Op) (events : List Event)
    (h : s.databaseAvailable = true) :
    (step s .disconnected).databaseAvailable = true ∧
      (_mongooseDisconnected s).databaseAvailable = true ∧
      (_mongooseDisconnected s).openUris = s.openUris ++ [s.connectionString] ∧
      (run s events).databaseAvailable = true ∧
      (awaitDatabase (step s .disconnected) op).resolved =
        s.resolved ++ [{ id := s.nextId, emits := s.emits }] ∧
      (awaitDatabase (step s .disconnected) op).listeners = s.listeners ∧
      (awaitDatabase (_mongooseDisconnected s) op).resolved =
        s.resolved ++ [{ id := s.nextId, emits := s.emits }] ∧
      (awaitDatabase (_mongooseDisconnected s) op).listeners = s.listeners := by
  obtain ⟨g1, _, g3, g4, g5, _, g7, _⟩ := (handlers_sameGate s).2.1
  have hd : (_mongooseDisconnected s).databaseAvailable = true := g1.trans h
  obtain ⟨_, _, a3, _, _, _, _, a8, _⟩ := awaitDatabase_available (_mongooseDisconnected s) op hd
  have hu : (_mongooseDisconnected s).openUris = s.openUris ++ [s.connectionString] := by
    cases ht : s.options.test.truthy <;>
      simp [_mongooseDisconnected, _openConnection, _createMongooseConnection, ht]
  have hstep : (awaitDatabase (step s .disconnected) op).resolved =
        s.resolved ++ [{ id := s.nextId, emits := s.emits }] ∧
      (awaitDatabase (step s .disconnected) op).listeners = s.listeners := by
    simp only [step]
    split
    · exact ⟨by rw [a8, g7, g4, g5], by rw [a3, g3]⟩
    · obtain ⟨_, _, b3, _, _, _, _, b8, _⟩ := awaitDatabase_available s op h
      exact ⟨b8, b3⟩
  exact ⟨step_available s .disconnected h, hd, hu, run_available events s h, hstep.1, hstep.2,
    by rw [a8, g7, g4, g5], by rw [a3, g3]⟩

/-- Witness for the amended C4: the connector whose connect promise has resolved. -/
theorem disconnected_leaves_gate_open_witness :
    availableConnector.databaseAvailable = true ∧
    (step availableConnector .disconnected).databaseAvailable = true ∧
    (awaitDatabase (_mongooseDisconnected availableConnector) .awaitOnly).listeners = [] :=
  ⟨by decide,
    (disconnected_leaves_gate_open availableConnector .awaitOnly [] (by decide)).1,
    (disconnected_leaves_gate_open availableConnector .awaitOnly [] (by decide)).2.2.2.2.2.2.2.trans
      (by decide)⟩

/-! ## Failed connection attempts -/

/-- Once nothing is left that emits 'databaseAvailable', every later call only
registers a listener: the flag stays unset and nothing more is resolved. -/
theorem stuck_step (s : State) (e : Event) (h : Stuck s) :
    Stuck (step s e) ∧ (step s e).resolved = s.resolved ∧
      (step s e).storeCalls = s.storeCalls := by
  obtain ⟨hp, ha⟩ := h
  cases e with
  | call op =>
    simp only [step]
    rw [awaitDatabase_unavailable s op ha]
    exact ⟨⟨hp, ha⟩, rfl, rfl⟩
  | connectResolved =>
    simp only [step, hp]
    exact ⟨⟨hp, ha⟩, rfl, rfl⟩
  | connectRejected =>
    simp only [step, hp]
    exact ⟨⟨hp, ha⟩, rfl, rfl⟩
  | opened =>
    simp only [step]
    split
    · obtain ⟨g1, _, _, _, _, _, g7, g8⟩ := (handlers_sameGate
        (openListenerRemoved s)).2.2.1 JSVal.undefined
      have gp := (handlers_sameGate (openListenerRemoved s)).2.2.2.2.2 JSVal.undefined
      exact ⟨⟨gp.trans hp, g1.trans ha⟩, g7, g8⟩
    · exact ⟨⟨hp, ha⟩, rfl, rfl⟩
  | errored =>
    simp only [step]
    split
    · obtain ⟨g1, _, _, _, _, _, g7, g8⟩ := (handlers_sameGate s).1
      exact ⟨⟨(handlers_sameGate s).2.2.2.1.trans hp, g1.trans ha⟩, g7, g8⟩
    · exact ⟨⟨hp, ha⟩, rfl, rfl⟩
  | disconnected =>
    simp only [step]
    split
    · obtain ⟨g1, _, _, _, _, _, g7, g8⟩ := (handlers_sameGate s).2.1
      exact ⟨⟨(handlers_sameGate s).2.2.2.2.1.trans hp, g1.trans ha⟩, g7, g8⟩
    · exact ⟨⟨hp, ha⟩, rfl, rfl⟩

/-- The same over a whole run. -/
theorem stuck_run (events : List Event) :
    ∀ s : State, Stuck s →
      Stuck (run s events) ∧ (run s events).resolved = s.resolved ∧
        (run s events).storeCalls = s.storeCalls := by
  induction events with
  | nil => intro s h; exact ⟨h, rfl, rfl⟩
  | cons e es ih =>
    intro s h
    obtain ⟨h1, h2, h3⟩ := stuck_step s e h
    obtain ⟨i1, i2, i3⟩ := ih (step s e) h1
    exact ⟨i1, i2.trans h2, i3.trans h3⟩

/-- When the set-up takes the handler branch (lines 116-119), nothing ever emits
'databaseAvailable': after every sequence of calls and signals the flag is unset
and no waiter is resolved. -/
theorem handler_branch_never_available (env : Env) (o : Options) (events : List Event)
    (ht : o.test.truthy = false) (hc : env.connectHasOnce = true) :
    (run (construct env o) events).databaseAvailable = false ∧
      (run (construct env o) events).resolved = [] ∧
      (run (construct env o) events).storeCalls = [] := by
  obtain ⟨_, k1, _, _, _, k5, k6, _⟩ := construct_inv env o
  have hp : (construct env o).thenPending = false := by
    simp [construct, _setupMongooseConnections, _openConnection,
      _createMongooseConnection, dbHasOnce, ht, hc]
  obtain ⟨s1, s2, s3⟩ := stuck_run events (construct env o) ⟨hp, k1⟩
  exact ⟨s1.2, s2.trans k5, s3.trans k6⟩

/-- When the connect promise rejects before it resolved (line 123), the connector
never becomes available: whatever follows, the flag is unset and no waiter is
resolved. -/
theorem rejected_promise_never_available (env : Env) (o : Options)
    (before after : List Event)
    (h : (run (construct env o) before).databaseAvailable = false) :
    (run (construct env o) (before ++ .connectRejected :: after)).databaseAvailable
        = false ∧
      (run (construct env o) (before ++ .connectRejected :: after)).resolved = [] := by
  have hinv := run_inv before (construct env o) (construct_inv env o).1
  have hres := hinv.resolved_ids
  rw [h] at hres
  simp only [Bool.false_eq_true, if_false] at hres
  have hres0 := List.map_eq_nil_iff.mp hres
  have hs : Stuck (step (run (construct env o) before) .connectRejected) ∧
      (step (run (construct env o) before) .connectRejected).resolved = [] := by
    simp only [step]
    split
    · exact ⟨⟨rfl, h⟩, hres0⟩
    · rename_i hp
      exact ⟨⟨by simpa using hp, h⟩, hres0⟩
  have hr : run (construct env o) (before ++ .connectRejected :: after) =
      run (step (run (construct env o) before) .connectRejected) after := by
    rw [run_append]
    rfl
  obtain ⟨s1, s2, _⟩ := stuck_run after _ hs.1
  rw [hr]
  exact ⟨s1.2, s2.trans hs.2⟩

/-- Running listeners opens no connection. -/
theorem foldl_runListener_connectCalls (ls : List Listener) :
    ∀ t : State, (ls.foldl runListener t).connectCalls = t.connectCalls ∧
      (ls.foldl runListener t).dbHandlers = t.dbHandlers := by
  induction ls with
  | nil => intro t; exact ⟨rfl, rfl⟩
  | cons l ls ih =>
    intro t
    obtain ⟨i1, i2⟩ := ih (runListener t l)
    have hl : (runListener t l).connectCalls = t.connectCalls ∧
        (runListener t l).dbHandlers = t.dbHandlers := by
      cases l with
      | ctor => exact ⟨rfl, rfl⟩
      | waiter id op =>
        simp only [runListener, resolveWaiter]
        split <;> exact ⟨rfl, rfl⟩
    exact ⟨i1.trans hl.1, i2.trans hl.2⟩

/-- When the set-up takes the promise branch (lines 121-125), no handler is
registered on the connection, so no step opens a connection again. -/
theorem no_handlers_step (s : State) (e : Event) (h : s.dbHandlers = false) :
    (step s e).dbHandlers = false ∧ (step s e).connectCalls = s.connectCalls := by
  cases e with
  | call op =>
    simp only [step, awaitDatabase]
    split
    · simp only [resolveWaiter]
      split <;> exact ⟨h, rfl⟩
    · exact ⟨h, rfl⟩
  | connectResolved =>
    simp only [step]
    split
    · obtain ⟨f1, f2⟩ := foldl_runListener_connectCalls (promiseSettled s).listeners
        ({ promiseSettled s with listeners := [], emits := (promiseSettled s).emits + 1 } :
          State)
      exact ⟨f2.trans h, f1⟩
    · exact ⟨h, rfl⟩
  | connectRejected =>
    simp only [step]
    split <;> exact ⟨h, rfl⟩
  | opened =>
    simp only [step, _mongooseOpened]
    split
    · split <;> exact ⟨h, rfl⟩
    · exact ⟨h, rfl⟩
  | errored =>
    simp only [step, h]
    exact ⟨h, rfl⟩
  | disconnected =>
    simp only [step, h]
    exact ⟨h, rfl⟩

/-- In the promise branch the connection is opened once and never again, whatever
calls and signals follow: a rejected attempt is not retried. -/
theorem promise_branch_opens_once (env : Env) (o : Options) (events : List Event)
    (h : o.test.truthy = true ∨ env.connectHasOnce = false) :
    (run (construct env o) events).connectCalls.length = 1 := by
  have h0 : (construct env o).dbHandlers = false ∧
      (construct env o).connectCalls.length = 1 := by
    rcases h with h | h
    · simp [construct, _setupMongooseConnections, _openConnection,
        _createMongooseConnection, dbHasOnce, h]
    · cases ht : o.test.truthy <;>
        simp [construct, _setupMongooseConnections, _openConnection,
          _createMongooseConnection, dbHasOnce, h, ht]
  have key : ∀ (es : List Event) (s : State), s.dbHandlers = false →
      (run s es).connectCalls = s.connectCalls := by
    intro es
    induction es with
    | nil => intro s _; rfl
    | cons e es ih =>
      intro s hs
      obtain ⟨n1, n2⟩ := no_handlers_step s e hs
      exact (ih (step s e) n1).trans n2
  rw [key events _ h0.1]
  exact h0.2

/-- C3, evaluated: in the promise branch a rejected connect is not retried (one
connect call in all) and the waiter is still suspended after the later 'open' and
resolution signals; in the handler branch the error is followed by a second connect
call, but the 'open' signal does not emit 'databaseAvailable', so the waiter is
still suspended as well. -/
theorem failed_open_strands_waiter :
    (run (construct promiseEnv {}) failedOpenPromise).connectCalls.length = 1 ∧
    (run (construct promiseEnv {}) failedOpenPromise).databaseAvailable = false ∧
    (run (construct promiseEnv {}) failedOpenPromise).resolved = [] ∧
    (run (construct promiseEnv {}) failedOpenPromise).listeners
      = [.ctor, .waiter 0 (.getCurrentAction ["A"])] ∧
    (run (construct eventEnv {}) failedOpenEvents).connectCalls.length = 2 ∧
    (run (construct eventEnv {}) failedOpenEvents).databaseAvailable = false ∧
    (run (construct eventEnv {}) failedOpenEvents).resolved = [] ∧
    (run (construct eventEnv {}) failedOpenEvents).listeners
      = [.ctor, .waiter 0 (.getCurrentAction ["A"])] := by
  decide

end ConnectorMongoose
